import Mathlib

set_option autoImplicit false

/-!
Shallow embedding of the create-pool submission workflow of
`src/frontend/src/app/create-pool/page.tsx` (Meshmulla/Nevo).

The embedded parts are, in source order:
  * the `FormData` record and the `validateForm` validation chain (lines 21-110),
  * the `handleSubmit` event handler, split into its synchronous pre-phase
    (wallet gate, validation gate, transition into `submitting`, construction
    of the `createPool` request, lines 112-140) and the two asynchronous
    continuations (success at lines 142-144, error classification at
    lines 145-162),
  * the UI gating that decides when the submit event can fire at all: the
    form is rendered only when `submissionState !== "success" && publicKey`
    (line 272) and the submit button is `disabled` when
    `submissionState === "submitting" || !publicKey` (line 402),
  * the "Try Again" button handler (lines 258-261).

JavaScript string/number primitives used by the source (`String.prototype.trim`,
`String.prototype.includes`, `parseFloat`, `parseInt` with no radix argument)
are modelled explicitly below; `NaN` results of the two parsers are modelled
as `none`, and numeric values as `ℚ` / `ℤ` (sign comparisons against 0, the
only use the source makes of them, agree with IEEE doubles on every value a
decimal literal can denote).
-/

namespace CreatePool

/-- The whitespace class stripped by JS `trim` and skipped by `parseFloat` /
`parseInt` (space, tab, line feed, carriage return, vertical tab, form feed;
the exotic Unicode space code points are not modelled). -/
def jsWhite (c : Char) : Bool :=
  c = ' ' || c = '\t' || c = '\n' || c = '\r' || c = '\x0b' || c = '\x0c'

/-- JS `String.prototype.trim`: drop leading and trailing whitespace. -/
def trimJS (s : String) : String :=
  String.mk (((s.toList.dropWhile jsWhite).reverse.dropWhile jsWhite).reverse)

/-- JS `String.prototype.includes`: substring containment. -/
def containsJS (hay sub : String) : Bool :=
  decide (sub.toList <:+: hay.toList)

/-- Value of a string of decimal digits. -/
def digitsVal (l : List Char) : Nat :=
  l.foldl (fun n c => 10 * n + (c.toNat - 48)) 0

def isHexDigit (c : Char) : Bool :=
  c.isDigit || ('a' ≤ c && c ≤ 'f') || ('A' ≤ c && c ≤ 'F')

def hexDigitVal (c : Char) : Nat :=
  if c.isDigit then c.toNat - 48
  else if 'a' ≤ c then c.toNat - 87
  else c.toNat - 55

/-- Value of a string of hexadecimal digits. -/
def hexVal (l : List Char) : Nat :=
  l.foldl (fun n c => 16 * n + hexDigitVal c) 0

/-- Consume an optional leading sign; `true` means negative. -/
def readSign : List Char → Bool × List Char
  | '-' :: r => (true, r)
  | '+' :: r => (false, r)
  | l => (false, l)

/-- Optional exponent part of a JS float literal: `e`/`E`, optional sign,
digits. An `e` not followed by a digit contributes exponent 0 (JS stops
consuming there and keeps the mantissa). -/
def readExp : List Char → Int
  | c :: r =>
    if c = 'e' || c = 'E' then
      let sr := readSign r
      let ds := sr.2.takeWhile Char.isDigit
      if ds = [] then 0
      else if sr.1 then -(digitsVal ds : Int) else (digitsVal ds : Int)
    else 0
  | [] => 0

/-- JS `parseFloat`: longest valid decimal-float prefix after leading
whitespace; `none` models `NaN` (no digit in the mantissa). The parsed value
`(integer digits . fraction digits) × 10^exponent` is the rational
`mantissaDigits × 10^(exponent - fractionLength)`, built with `mkRat` so that
it stays kernel-computable. The `Infinity` literal is not modelled. -/
def parseFloatJS (s : String) : Option ℚ :=
  let l := s.toList.dropWhile jsWhite
  let sr := readSign l
  let ip := sr.2.takeWhile Char.isDigit
  let l2 := sr.2.dropWhile Char.isDigit
  let fp := match l2 with
    | '.' :: r => r.takeWhile Char.isDigit
    | _ => []
  let l3 := match l2 with
    | '.' :: r => r.dropWhile Char.isDigit
    | _ => l2
  if ip = [] && fp = [] then none
  else
    let ex : Int := readExp l3 - (fp.length : Int)
    let m : Int := (digitsVal (ip ++ fp) : Int)
    let v : ℚ :=
      if 0 ≤ ex then mkRat (m * (10 : Int) ^ ex.toNat) 1
      else mkRat m ((10 : Nat) ^ (-ex).toNat)
    some (if sr.1 then -v else v)

/-- JS `parseInt` with no radix argument: longest digit prefix after leading
whitespace and optional sign, with radix 16 when the string starts `0x`/`0X`;
`none` models `NaN` (no digit). -/
def parseIntJS (s : String) : Option Int :=
  let l := s.toList.dropWhile jsWhite
  let sr := readSign l
  let hex : Option (List Char) := match sr.2 with
    | '0' :: 'x' :: r => some r
    | '0' :: 'X' :: r => some r
    | _ => none
  match hex with
  | some r =>
    let ds := r.takeWhile isHexDigit
    if ds = [] then none
    else some (if sr.1 then -(hexVal ds : Int) else (hexVal ds : Int))
  | none =>
    let ds := sr.2.takeWhile Char.isDigit
    if ds = [] then none
    else some (if sr.1 then -(digitsVal ds : Int) else (digitsVal ds : Int))

/-- `parseFloat(x) <= 0` in JS: false when the parse is `NaN`. -/
def jsNonPos (o : Option ℚ) : Bool :=
  match o with
  | some q => decide (q ≤ 0)
  | none => false

/-- `parseInt(x) <= 0` in JS: false when the parse is `NaN`. -/
def jsNonPosInt (o : Option Int) : Bool :=
  match o with
  | some n => decide (n ≤ 0)
  | none => false

/-- The `FormData` interface (source lines 21-28): six string-valued fields. -/
structure FormData where
  name : String
  description : String
  externalUrl : String
  imageHash : String
  targetAmount : String
  durationDays : String
deriving DecidableEq, Repr

/-- The initial form state (source lines 35-42): all fields empty. -/
def emptyForm : FormData :=
  { name := "", description := "", externalUrl := "", imageHash := "",
    targetAmount := "", durationDays := "" }

/-- `validateForm` (source lines 72-110) as a pure function: the source
returns `false` after storing the first failing rule's message in
`errorMessage`; here the result is `some message` for the first failing rule
and `none` for a form that passes every rule. -/
def validateForm (f : FormData) : Option String :=
  if trimJS f.name = "" then some "Pool name is required"
  else if trimJS f.description = "" then some "Description is required"
  else if 500 < f.description.length then some "Description must be 500 characters or less"
  else if trimJS f.externalUrl = "" then some "External URL is required"
  else if 200 < f.externalUrl.length then some "External URL must be 200 characters or less"
  else if trimJS f.imageHash = "" then some "Image hash is required"
  else if 100 < f.imageHash.length then some "Image hash must be 100 characters or less"
  else if f.targetAmount = "" ∨ jsNonPos (parseFloatJS f.targetAmount) = true then
    some "Target amount must be greater than 0"
  else if f.durationDays = "" ∨ jsNonPosInt (parseIntJS f.durationDays) = true then
    some "Duration must be greater than 0 days"
  else none

/-- The four submission states (source line 30). -/
inductive SubmissionState where
  | idle
  | submitting
  | success
  | error
deriving DecidableEq, Repr

/-- Classified error kinds (spec §3 `SubmissionError.kind`); the source keeps
only the message, the kind names which branch of the classifier chain fired. -/
inductive ErrorKind where
  | userRejected
  | simulationFailure
  | transactionFailure
  | unknown
deriving DecidableEq, Repr

structure SubmissionError where
  kind : ErrorKind
  message : String
deriving DecidableEq, Repr

/-- The error-classification chain of the catch block (source lines 150-161),
as a pure total function on the raw error message. An error object whose
`message` is `undefined` behaves exactly like `""` there (optional chaining
makes every `includes` test falsy and `"" || fallback` picks the fallback),
so the raw input is modelled as a plain string. -/
def classify (raw : String) : SubmissionError :=
  if containsJS raw "User rejected" then
    ⟨.userRejected, "Transaction was rejected. Please try again."⟩
  else if containsJS raw "Simulation failed" then
    ⟨.simulationFailure, "Transaction simulation failed. Please check your inputs."⟩
  else if containsJS raw "Transaction failed" then
    ⟨.transactionFailure, "Transaction failed: " ++ raw⟩
  else
    ⟨.unknown, if raw = "" then "Failed to create pool. Please try again." else raw⟩

/-- The payload handed to the external `createPool` gateway (source lines
133-140). `deadline` is `none` when `parseInt(durationDays)` is `NaN` (the
arithmetic then propagates `NaN`). -/
structure CreateRequest where
  name : String
  description : String
  externalUrl : String
  imageHash : String
  targetAmount : String
  deadline : Option Int
deriving DecidableEq, Repr

/-- The page's React state relevant to the workflow (source lines 33-46). -/
structure ControllerState where
  publicKey : Option String
  formData : FormData
  submissionState : SubmissionState
  errorMessage : String
  txHash : String
  poolId : Option Int
deriving DecidableEq, Repr

/-- Result of the synchronous pre-phase of `handleSubmit`: the updated state
and the request handed to `createPool`, if the call was made. -/
structure SubmitOut where
  state : ControllerState
  request : Option CreateRequest
deriving DecidableEq, Repr

/-- Synchronous pre-phase of `handleSubmit` (source lines 112-140): wallet
gate, validation gate, then the transition into `submitting` together with
the `createPool` request built from the form snapshot. `now` is
`Math.floor(Date.now() / 1000)`. -/
def handleSubmit (now : Int) (s : ControllerState) : SubmitOut :=
  match s.publicKey with
  | none => ⟨{ s with errorMessage := "Please connect your wallet first" }, none⟩
  | some _ =>
    match validateForm s.formData with
    | some msg => ⟨{ s with errorMessage := msg }, none⟩
    | none =>
      let deadline := (parseIntJS s.formData.durationDays).map
        (fun d => now + d * (24 * 60 * 60))
      ⟨{ s with submissionState := .submitting, errorMessage := "" },
       some { name := s.formData.name, description := s.formData.description,
              externalUrl := s.formData.externalUrl,
              imageHash := s.formData.imageHash,
              targetAmount := s.formData.targetAmount,
              deadline := deadline }⟩

/-- Line 272: the form (and hence its submit event) exists only while
`submissionState !== "success" && publicKey`. -/
def formRendered (s : ControllerState) : Bool :=
  !(decide (s.submissionState = .success)) && s.publicKey.isSome

/-- Line 402: the submit button is disabled while
`submissionState === "submitting" || !publicKey`. -/
def submitDisabled (s : ControllerState) : Bool :=
  decide (s.submissionState = .submitting) || !s.publicKey.isSome

/-- The user-level submit action: the browser dispatches the form's submit
event (running `handleSubmit`) only when the form is rendered and its submit
button is enabled; otherwise nothing happens and no request is made. -/
def submit (now : Int) (s : ControllerState) : SubmitOut :=
  if formRendered s && !submitDisabled s then handleSubmit now s else ⟨s, none⟩

/-- Form-field names, for the single `handleInputChange` handler
(source lines 65-70). -/
inductive Field where
  | name
  | description
  | externalUrl
  | imageHash
  | targetAmount
  | durationDays
deriving DecidableEq, Repr

/-- `handleInputChange`: store the new value under the field's name. -/
def setField (f : FormData) : Field → String → FormData
  | .name, v => { f with name := v }
  | .description, v => { f with description := v }
  | .externalUrl, v => { f with externalUrl := v }
  | .imageHash, v => { f with imageHash := v }
  | .targetAmount, v => { f with targetAmount := v }
  | .durationDays, v => { f with durationDays := v }

/-- Events the page can process, one per handler in the source. -/
inductive Event where
  | connectWallet (k : Option String)
  | inputChange (fld : Field) (v : String)
  | submitEv (now : Int)
  | resolveOk (txHash : String) (poolId : Option Int)
  | resolveErr (raw : String)
  | tryAgain
deriving DecidableEq, Repr

/-- One step of the page: `none` when the event cannot occur in `s`.
  * `connectWallet k` — the Connect Wallet button (rendered only while no
    key is held, line 200) ran `connect` and its callback stored
    `getPublicKey()` (lines 58-63);
  * `inputChange` — a field edit; inputs exist only while the form is
    rendered and are `disabled` while submitting (e.g. line 287);
  * `submitEv now` — the user-level submit action (see `submit`);
  * `resolveOk` / `resolveErr` — the awaited `createPool` call resolved
    (lines 142-144) or threw (lines 145-161); only one call is in flight,
    exactly while the state is `submitting`;
  * `tryAgain` — the Try Again button (rendered only in the error state,
    lines 248-265). -/
def stepFn (e : Event) (s : ControllerState) : Option ControllerState :=
  match e with
  | .connectWallet k =>
    if s.publicKey = none then some { s with publicKey := k } else none
  | .inputChange fld v =>
    if formRendered s ∧ s.submissionState ≠ .submitting then
      some { s with formData := setField s.formData fld v }
    else none
  | .submitEv now =>
    if formRendered s ∧ submitDisabled s = false then
      some (handleSubmit now s).state
    else none
  | .resolveOk t p =>
    if s.submissionState = .submitting then
      some { s with txHash := t, poolId := p, submissionState := .success }
    else none
  | .resolveErr raw =>
    if s.submissionState = .submitting then
      some { s with submissionState := .error, errorMessage := (classify raw).message }
    else none
  | .tryAgain =>
    if s.submissionState = .error then
      some { s with submissionState := .idle, errorMessage := "" }
    else none

/-- States the page can start in once the mount-time wallet check (lines
49-56) has resolved: empty form, idle, no message, no result; the held key is
whatever `getPublicKey()` returned. -/
def InitOk (s : ControllerState) : Prop :=
  s.formData = emptyForm ∧ s.submissionState = .idle ∧
    s.errorMessage = "" ∧ s.txHash = "" ∧ s.poolId = none

/-- States reachable from a start state by page events. -/
inductive Reachable : ControllerState → Prop where
  | init (s : ControllerState) : InitOk s → Reachable s
  | step (s : ControllerState) (e : Event) (s' : ControllerState) :
      Reachable s → stepFn e s = some s' → Reachable s'

/-- The nine validation rules' failure conditions, indexed in the source's
priority order (spec §4.1); indices past 8 never fail. -/
def violates (f : FormData) : Nat → Bool
  | 0 => decide (trimJS f.name = "")
  | 1 => decide (trimJS f.description = "")
  | 2 => decide (500 < f.description.length)
  | 3 => decide (trimJS f.externalUrl = "")
  | 4 => decide (200 < f.externalUrl.length)
  | 5 => decide (trimJS f.imageHash = "")
  | 6 => decide (100 < f.imageHash.length)
  | 7 => decide (f.targetAmount = "") || jsNonPos (parseFloatJS f.targetAmount)
  | 8 => decide (f.durationDays = "") || jsNonPosInt (parseIntJS f.durationDays)
  | _ => false

/-- The nine validation rules' messages, in the same order. -/
def ruleMsg : Nat → String
  | 0 => "Pool name is required"
  | 1 => "Description is required"
  | 2 => "Description must be 500 characters or less"
  | 3 => "External URL is required"
  | 4 => "External URL must be 200 characters or less"
  | 5 => "Image hash is required"
  | 6 => "Image hash must be 100 characters or less"
  | 7 => "Target amount must be greater than 0"
  | 8 => "Duration must be greater than 0 days"
  | _ => ""

/-- Consequences the page maintains across every event: while submitting or
after success the inline message is clear, and a stored result (`txHash` or
`poolId`) exists only in the success state. -/
def Inv (s : ControllerState) : Prop :=
  (s.submissionState = .submitting → s.errorMessage = "") ∧
  (s.submissionState = .success → s.errorMessage = "") ∧
  ((s.txHash ≠ "" ∨ s.poolId ≠ none) → s.submissionState = .success)

theorem dropWhile_all_iff (p : Char → Bool) (l : List Char) :
    (∀ x ∈ l.dropWhile p, p x = true) ↔ ∀ x ∈ l, p x = true := by
  constructor
  · intro h x hx
    rw [← List.takeWhile_append_dropWhile (p := p) (l := l)] at hx
    rcases List.mem_append.1 hx with h1 | h2
    · exact List.mem_takeWhile_imp h1
    · exact h x h2
  · intro h x hx
    exact h x ((List.dropWhile_sublist p).subset hx)

/-- A string trims to empty exactly when all its characters are whitespace. -/
theorem trimJS_eq_empty_iff (s : String) :
    trimJS s = "" ↔ s.toList.all jsWhite = true := by
  rw [String.ext_iff]
  show ((s.toList.dropWhile jsWhite).reverse.dropWhile jsWhite).reverse = [] ↔ _
  rw [List.reverse_eq_nil_iff, List.dropWhile_eq_nil_iff, List.all_eq_true]
  constructor
  · intro h
    rw [← dropWhile_all_iff jsWhite]
    intro x hx
    exact h x (List.mem_reverse.2 hx)
  · intro h x hx
    exact h x ((List.dropWhile_sublist jsWhite).subset (List.mem_reverse.1 hx))

theorem initOk_inv {s : ControllerState} (h : InitOk s) : Inv s := by
  obtain ⟨-, h2, h3, h4, h5⟩ := h
  refine ⟨fun _ => h3, fun _ => h3, fun hc => ?_⟩
  rcases hc with hc | hc
  · exact absurd h4 hc
  · exact absurd h5 hc

theorem step_inv {s s' : ControllerState} {e : Event}
    (hstep : stepFn e s = some s') (hinv : Inv s) : Inv s' := by
  obtain ⟨h1, h2, h3⟩ := hinv
  cases e with
  | connectWallet k =>
    simp only [stepFn] at hstep
    split at hstep
    · cases hstep; exact ⟨h1, h2, h3⟩
    · cases hstep
  | inputChange fld v =>
    simp only [stepFn] at hstep
    split at hstep
    · cases hstep; exact ⟨h1, h2, h3⟩
    · cases hstep
  | submitEv now =>
    simp only [stepFn] at hstep
    split at hstep
    case isTrue hc =>
      cases hstep
      obtain ⟨hren, hdis⟩ := hc
      simp only [formRendered, Bool.and_eq_true, Bool.not_eq_true',
        decide_eq_false_iff_not] at hren
      simp only [submitDisabled, Bool.or_eq_false_iff,
        decide_eq_false_iff_not, Bool.not_eq_true', Bool.not_eq_false] at hdis
      have hnsucc : s.submissionState ≠ .success := hren.1
      have hnsub : s.submissionState ≠ .submitting := hdis.1
      obtain ⟨k, hk⟩ : ∃ k, s.publicKey = some k := by
        cases hko : s.publicKey with
        | none => rw [hko] at hdis; simp at hdis
        | some k => exact ⟨k, rfl⟩
      cases hval : validateForm s.formData with
      | some msg =>
        simp only [handleSubmit, hk, hval]
        exact ⟨fun hx => absurd hx hnsub,
          ⟨fun hx => absurd hx hnsucc, fun hco => absurd (h3 hco) hnsucc⟩⟩
      | none =>
        simp only [handleSubmit, hk, hval]
        exact And.intro (fun _ => rfl)
          (And.intro (fun hx => nomatch hx) (fun hco => absurd (h3 hco) hnsucc))
    case isFalse => cases hstep
  | resolveOk t p =>
    simp only [stepFn] at hstep
    split at hstep
    case isTrue hc =>
      cases hstep
      exact And.intro (fun hx => nomatch hx)
        (And.intro (fun _ => h1 hc) (fun _ => rfl))
    case isFalse => cases hstep
  | resolveErr raw =>
    simp only [stepFn] at hstep
    split at hstep
    case isTrue hc =>
      cases hstep
      refine And.intro (fun hx => nomatch hx)
        (And.intro (fun hx => nomatch hx) (fun hco => ?_))
      have hss := h3 hco
      rw [hc] at hss
      cases hss
    case isFalse => cases hstep
  | tryAgain =>
    simp only [stepFn] at hstep
    split at hstep
    case isTrue hc =>
      cases hstep
      refine And.intro (fun hx => nomatch hx)
        (And.intro (fun hx => nomatch hx) (fun hco => ?_))
      have hss := h3 hco
      rw [hc] at hss
      cases hss
    case isFalse => cases hstep

theorem reachable_inv {s : ControllerState} (h : Reachable s) : Inv s := by
  induction h with
  | init s h => exact initOk_inv h
  | step s e s' hr hst ih => exact step_inv hst ih

/-- C1: while the state is Submitting, the submit action is a no-op — the
whole controller state (submission state, stored txHash/poolId, error
message) is unchanged and no request reaches the `createPool` gateway,
because the submit button is disabled and the submit event cannot fire. -/
theorem submit_while_submitting_noop (now : Int) (s : ControllerState)
    (h : s.submissionState = .submitting) : submit now s = ⟨s, none⟩ := by
  simp [submit, submitDisabled, h]

theorem submit_while_submitting_noop_witness :
    submit 0 ⟨some "GABC", emptyForm, .submitting, "", "", none⟩ =
      ⟨⟨some "GABC", emptyForm, .submitting, "", "", none⟩, none⟩ :=
  submit_while_submitting_noop 0 _ rfl

/-- C5: `handleSubmit` invoked in the Idle state with no wallet key sets the
inline message "Please connect your wallet first", and invoked with a key but
a failing validation sets the first failing rule's message; in both cases no
request is handed to the `createPool` gateway, the state stays Idle and every
other stored field is unchanged. -/
theorem handleSubmit_rejected_attempt (now : Int) (s : ControllerState)
    (hidle : s.submissionState = .idle) :
    (s.publicKey = none →
      handleSubmit now s =
        ⟨{ s with errorMessage := "Please connect your wallet first" }, none⟩ ∧
      (handleSubmit now s).state.submissionState = .idle) ∧
    (∀ k msg, s.publicKey = some k → validateForm s.formData = some msg →
      handleSubmit now s = ⟨{ s with errorMessage := msg }, none⟩ ∧
      (handleSubmit now s).state.submissionState = .idle) := by
  constructor
  · intro hk
    constructor
    · simp [handleSubmit, hk]
    · simp [handleSubmit, hk, hidle]
  · intro k msg hk hv
    constructor
    · simp [handleSubmit, hk, hv]
    · simp [handleSubmit, hk, hv, hidle]

theorem handleSubmit_rejected_attempt_witness :
    handleSubmit 0 ⟨none, emptyForm, .idle, "", "", none⟩ =
      ⟨⟨none, emptyForm, .idle, "Please connect your wallet first", "", none⟩, none⟩ :=
  ((handleSubmit_rejected_attempt 0 ⟨none, emptyForm, .idle, "", "", none⟩ rfl).1 rfl).1

/-- C9: the Try Again action in the Error state moves the controller to Idle
and clears the inline error message, while the form data, wallet key and
stored result are all left unchanged. -/
theorem tryAgain_returns_to_idle (s : ControllerState)
    (h : s.submissionState = .error) :
    ∃ s', stepFn .tryAgain s = some s' ∧
      s'.submissionState = .idle ∧ s'.errorMessage = "" ∧
      s'.formData = s.formData ∧ s'.publicKey = s.publicKey ∧
      s'.txHash = s.txHash ∧ s'.poolId = s.poolId := by
  refine ⟨{ s with submissionState := .idle, errorMessage := "" }, ?_,
    rfl, rfl, rfl, rfl, rfl, rfl⟩
  simp [stepFn, h]

theorem tryAgain_returns_to_idle_witness :
    ∃ s', stepFn .tryAgain
        ⟨some "GABC", ⟨"n", "d", "u", "h", "5", "7"⟩, .error,
          "Transaction was rejected. Please try again.", "", none⟩ = some s' ∧
      s'.submissionState = .idle ∧ s'.errorMessage = "" ∧
      s'.formData = ⟨"n", "d", "u", "h", "5", "7"⟩ ∧ s'.publicKey = some "GABC" ∧
      s'.txHash = "" ∧ s'.poolId = none :=
  tryAgain_returns_to_idle _ rfl

theorem append_ne_empty_left (a b : String) (h : a ≠ "") : a ++ b ≠ "" := by
  intro hab
  apply h
  have hd : a.data ++ b.data = ([] : List Char) := congrArg String.data hab
  have ha : a.data = [] := (List.append_eq_nil.1 hd).1
  exact String.ext ha

/-- C4: `classify` is total with a non-empty message for every raw error
message, matching by case-sensitive substring in the fixed priority order
"User rejected", "Simulation failed", "Transaction failed", with the Unknown
fallback echoing a non-empty raw message and using the generic message for an
empty one (in particular on `""`). -/
theorem classify_total_priority (raw : String) :
    (classify raw).message ≠ "" ∧
    (containsJS raw "User rejected" = true →
      classify raw = ⟨.userRejected, "Transaction was rejected. Please try again."⟩) ∧
    (containsJS raw "User rejected" = false →
      containsJS raw "Simulation failed" = true →
      classify raw =
        ⟨.simulationFailure, "Transaction simulation failed. Please check your inputs."⟩) ∧
    (containsJS raw "User rejected" = false →
      containsJS raw "Simulation failed" = false →
      containsJS raw "Transaction failed" = true →
      classify raw = ⟨.transactionFailure, "Transaction failed: " ++ raw⟩) ∧
    (containsJS raw "User rejected" = false →
      containsJS raw "Simulation failed" = false →
      containsJS raw "Transaction failed" = false →
      (classify raw).kind = .unknown ∧
      (raw ≠ "" → (classify raw).message = raw) ∧
      (raw = "" → (classify raw).message = "Failed to create pool. Please try again.")) := by
  refine ⟨?_, ?_, ?_, ?_, ?_⟩
  · unfold classify
    split
    · simp
    · split
      · simp
      · split
        · exact append_ne_empty_left "Transaction failed: " raw (by decide)
        · dsimp only
          split
          · simp
          · simpa using by assumption
  · intro h1
    simp [classify, h1]
  · intro h1 h2
    simp [classify, h1, h2]
  · intro h1 h2 h3
    simp [classify, h1, h2, h3]
  · intro h1 h2 h3
    refine ⟨by simp [classify, h1, h2, h3], fun hne => ?_, fun he => ?_⟩
    · simp [classify, h1, h2, h3, hne]
    · subst he
      rfl

theorem classify_total_priority_witness :
    containsJS "User rejected request" "User rejected" = true ∧
    classify "User rejected request" =
      ⟨.userRejected, "Transaction was rejected. Please try again."⟩ :=
  ⟨by decide, (classify_total_priority "User rejected request").2.1 (by decide)⟩

/-- C6: whenever the submit action hands a request to the `createPool`
gateway at unix time `now`, its deadline is `now + d * 86400` for the integer
`d` that `parseInt` extracts from `durationDays` (`none` when that parse is
`NaN`); in particular `durationDays = "30"` yields `now + 2592000`. -/
theorem submit_deadline (now : Int) (s : ControllerState) (r : CreateRequest)
    (h : (submit now s).request = some r) :
    r.deadline = (parseIntJS s.formData.durationDays).map (fun d => now + d * 86400) ∧
    (s.formData.durationDays = "30" → r.deadline = some (now + 2592000)) := by
  have hr : r.deadline =
      (parseIntJS s.formData.durationDays).map (fun d => now + d * 86400) := by
    unfold submit at h
    split at h
    case isFalse => simp at h
    case isTrue hg =>
      rcases hk : s.publicKey with _ | k
      · simp only [handleSubmit, hk] at h
        simp at h
      · cases hval : validateForm s.formData with
        | some msg =>
          simp only [handleSubmit, hk, hval] at h
          simp at h
        | none =>
          simp only [handleSubmit, hk, hval, Option.some.injEq] at h
          rw [← h]
          norm_num
  refine ⟨hr, fun h30 => ?_⟩
  rw [hr, h30, show parseIntJS "30" = some (30 : Int) from rfl]
  simp only [Option.map_some']
  norm_num

theorem submit_deadline_witness :
    (submit 1000 ⟨some "GABC", ⟨"n", "d", "u", "h", "100", "30"⟩,
        .idle, "", "", none⟩).request =
      some ⟨"n", "d", "u", "h", "100", some 2593000⟩ ∧
    some (2593000 : Int) = some (1000 + 2592000) := by
  have hreq : (submit 1000 ⟨some "GABC", ⟨"n", "d", "u", "h", "100", "30"⟩,
      .idle, "", "", none⟩).request = some ⟨"n", "d", "u", "h", "100", some 2593000⟩ := by
    decide
  exact ⟨hreq,
    (submit_deadline 1000 ⟨some "GABC", ⟨"n", "d", "u", "h", "100", "30"⟩,
      .idle, "", "", none⟩ ⟨"n", "d", "u", "h", "100", some 2593000⟩ hreq).2 rfl⟩

/-- C7: with every earlier rule passing, `targetAmount = "0"` fails
validation with "Target amount must be greater than 0", while
`targetAmount = "0.0000001"` passes the target-amount rule. -/
theorem validate_targetAmount_boundary (f : FormData)
    (h : ∀ j, j < 7 → violates f j = false) :
    validateForm { f with targetAmount := "0" } =
      some "Target amount must be greater than 0" ∧
    violates { f with targetAmount := "0.0000001" } 7 = false := by
  have h0 : ¬(trimJS f.name = "") := by simpa [violates] using h 0 (by omega)
  have h1 : ¬(trimJS f.description = "") := by simpa [violates] using h 1 (by omega)
  have h2 : ¬(500 < f.description.length) := by simpa [violates] using h 2 (by omega)
  have h3 : ¬(trimJS f.externalUrl = "") := by simpa [violates] using h 3 (by omega)
  have h4 : ¬(200 < f.externalUrl.length) := by simpa [violates] using h 4 (by omega)
  have h5 : ¬(trimJS f.imageHash = "") := by simpa [violates] using h 5 (by omega)
  have h6 : ¬(100 < f.imageHash.length) := by simpa [violates] using h 6 (by omega)
  constructor
  · simp [validateForm, h0, h1, h2, h3, h4, h5, h6,
      show jsNonPos (parseFloatJS "0") = true from rfl]
  · show (decide ("0.0000001" = "") || jsNonPos (parseFloatJS "0.0000001")) = false
    decide

theorem validate_targetAmount_boundary_witness :
    (∀ j, j < 7 → violates ⟨"n", "d", "u", "h", "1", "30"⟩ j = false) ∧
    (validateForm { (⟨"n", "d", "u", "h", "1", "30"⟩ : FormData) with
        targetAmount := "0" } = some "Target amount must be greater than 0" ∧
     violates { (⟨"n", "d", "u", "h", "1", "30"⟩ : FormData) with
        targetAmount := "0.0000001" } 7 = false) :=
  ⟨by decide, validate_targetAmount_boundary _ (by decide)⟩

/-- C8: a non-empty `targetAmount` whose `parseFloat` is `NaN` passes the
target-amount rule, and a non-empty `durationDays` whose `parseInt` is `NaN`
passes the duration rule (NaN is not `≤ 0`); hence any form in which at
least one of the two is a non-empty NaN string, the other numeric rule
passes, and the seven earlier rules pass, validates Ok, and with a wallet
key held the submit action hands the gateway a request carrying the raw
amount string and the `parseInt`-derived deadline (itself `NaN` when the
duration was the NaN field). -/
theorem validate_nan_passes (f : FormData) (now : Int) (k : String) :
    (f.targetAmount ≠ "" → parseFloatJS f.targetAmount = none →
      violates f 7 = false) ∧
    (f.durationDays ≠ "" → parseIntJS f.durationDays = none →
      violates f 8 = false) ∧
    ((∀ j, j < 7 → violates f j = false) →
     ((f.targetAmount ≠ "" ∧ parseFloatJS f.targetAmount = none ∧
         violates f 8 = false) ∨
      (f.durationDays ≠ "" ∧ parseIntJS f.durationDays = none ∧
         violates f 7 = false)) →
      validateForm f = none ∧
      ∃ r, (submit now ⟨some k, f, .idle, "", "", none⟩).request = some r ∧
        r.targetAmount = f.targetAmount ∧
        r.deadline =
          (parseIntJS f.durationDays).map (fun d => now + d * 86400)) := by
  refine ⟨?_, ?_, ?_⟩
  · intro hta hpf
    simp [violates, hta, hpf, jsNonPos]
  · intro hdd hpi
    simp [violates, hdd, hpi, jsNonPosInt]
  · intro h hnan
    have h0 : ¬(trimJS f.name = "") := by simpa [violates] using h 0 (by omega)
    have h1 : ¬(trimJS f.description = "") := by simpa [violates] using h 1 (by omega)
    have h2 : ¬(500 < f.description.length) := by simpa [violates] using h 2 (by omega)
    have h3 : ¬(trimJS f.externalUrl = "") := by simpa [violates] using h 3 (by omega)
    have h4 : ¬(200 < f.externalUrl.length) := by simpa [violates] using h 4 (by omega)
    have h5 : ¬(trimJS f.imageHash = "") := by simpa [violates] using h 5 (by omega)
    have h6 : ¬(100 < f.imageHash.length) := by simpa [violates] using h 6 (by omega)
    have h7' : ¬(f.targetAmount = "" ∨ jsNonPos (parseFloatJS f.targetAmount) = true) := by
      rcases hnan with ⟨hta, hpf, -⟩ | ⟨-, -, h7⟩
      · rintro (hc | hc)
        · exact hta hc
        · rw [hpf] at hc
          simp [jsNonPos] at hc
      · simp only [violates, Bool.or_eq_false_iff, decide_eq_false_iff_not] at h7
        rintro (hc | hc)
        · exact h7.1 hc
        · rw [h7.2] at hc
          cases hc
    have h8' : ¬(f.durationDays = "" ∨ jsNonPosInt (parseIntJS f.durationDays) = true) := by
      rcases hnan with ⟨-, -, h8⟩ | ⟨hdd, hpi, -⟩
      · simp only [violates, Bool.or_eq_false_iff, decide_eq_false_iff_not] at h8
        rintro (hc | hc)
        · exact h8.1 hc
        · rw [h8.2] at hc
          cases hc
      · rintro (hc | hc)
        · exact hdd hc
        · rw [hpi] at hc
          simp [jsNonPosInt] at hc
    have hv : validateForm f = none := by
      simp [validateForm, h0, h1, h2, h3, h4, h5, h6, h7', h8']
    refine ⟨hv,
      ⟨f.name, f.description, f.externalUrl, f.imageHash, f.targetAmount,
        (parseIntJS f.durationDays).map (fun d => now + d * 86400)⟩, ?_, rfl, rfl⟩
    simp [submit, formRendered, submitDisabled, handleSubmit, hv]

theorem validate_nan_passes_witness :
    parseFloatJS "abc" = none ∧
    (validateForm ⟨"n", "d", "u", "h", "abc", "30"⟩ = none ∧
     ∃ r, (submit 0 ⟨some "GABC", ⟨"n", "d", "u", "h", "abc", "30"⟩,
         .idle, "", "", none⟩).request = some r ∧
       r.targetAmount = "abc" ∧
       r.deadline = (parseIntJS "30").map (fun d => (0 : Int) + d * 86400)) :=
  ⟨by decide,
   (validate_nan_passes ⟨"n", "d", "u", "h", "abc", "30"⟩ 0 "GABC").2.2
     (by decide) (Or.inl ⟨by decide, by decide, by decide⟩)⟩

/-- C3: `validateForm` reports exactly the first violated rule in the fixed
priority order (name required, description required, description length,
externalUrl required, externalUrl length, imageHash required, imageHash
length, targetAmount, durationDays), never a later one, and returns Ok
exactly when no rule is violated. -/
theorem validateForm_first_violation (f : FormData) :
    ((∀ i, i < 9 → violates f i = false) → validateForm f = none) ∧
    (∀ i, i < 9 → violates f i = true → (∀ j, j < i → violates f j = false) →
      validateForm f = some (ruleMsg i)) := by
  constructor
  · intro h
    have h0 : ¬(trimJS f.name = "") := by simpa [violates] using h 0 (by omega)
    have h1 : ¬(trimJS f.description = "") := by simpa [violates] using h 1 (by omega)
    have h2 : ¬(500 < f.description.length) := by simpa [violates] using h 2 (by omega)
    have h3 : ¬(trimJS f.externalUrl = "") := by simpa [violates] using h 3 (by omega)
    have h4 : ¬(200 < f.externalUrl.length) := by simpa [violates] using h 4 (by omega)
    have h5 : ¬(trimJS f.imageHash = "") := by simpa [violates] using h 5 (by omega)
    have h6 : ¬(100 < f.imageHash.length) := by simpa [violates] using h 6 (by omega)
    have h7 := h 7 (by omega)
    have h8 := h 8 (by omega)
    simp only [violates, Bool.or_eq_false_iff, decide_eq_false_iff_not] at h7 h8
    have h7' : ¬(f.targetAmount = "" ∨ jsNonPos (parseFloatJS f.targetAmount) = true) := by
      rintro (hc | hc)
      · exact h7.1 hc
      · rw [h7.2] at hc
        cases hc
    have h8' : ¬(f.durationDays = "" ∨ jsNonPosInt (parseIntJS f.durationDays) = true) := by
      rintro (hc | hc)
      · exact h8.1 hc
      · rw [h8.2] at hc
        cases hc
    simp [validateForm, h0, h1, h2, h3, h4, h5, h6, h7', h8']
  · intro i hi hv hmin
    have pass0 : 1 ≤ i → ¬(trimJS f.name = "") := fun hj => by
      simpa [violates] using hmin 0 (by omega)
    have pass1 : 2 ≤ i → ¬(trimJS f.description = "") := fun hj => by
      simpa [violates] using hmin 1 (by omega)
    have pass2 : 3 ≤ i → ¬(500 < f.description.length) := fun hj => by
      simpa [violates] using hmin 2 (by omega)
    have pass3 : 4 ≤ i → ¬(trimJS f.externalUrl = "") := fun hj => by
      simpa [violates] using hmin 3 (by omega)
    have pass4 : 5 ≤ i → ¬(200 < f.externalUrl.length) := fun hj => by
      simpa [violates] using hmin 4 (by omega)
    have pass5 : 6 ≤ i → ¬(trimJS f.imageHash = "") := fun hj => by
      simpa [violates] using hmin 5 (by omega)
    have pass6 : 7 ≤ i → ¬(100 < f.imageHash.length) := fun hj => by
      simpa [violates] using hmin 6 (by omega)
    have pass7 : 8 ≤ i →
        ¬(f.targetAmount = "" ∨ jsNonPos (parseFloatJS f.targetAmount) = true) := by
      intro hj
      have h7 := hmin 7 (by omega)
      simp only [violates, Bool.or_eq_false_iff, decide_eq_false_iff_not] at h7
      rintro (hc | hc)
      · exact h7.1 hc
      · rw [h7.2] at hc
        cases hc
    unfold validateForm
    interval_cases i
    · simp only [violates, decide_eq_true_eq] at hv
      rw [if_pos hv]
      rfl
    · simp only [violates, decide_eq_true_eq] at hv
      rw [if_neg (pass0 (by omega)), if_pos hv]
      rfl
    · simp only [violates, decide_eq_true_eq] at hv
      rw [if_neg (pass0 (by omega)), if_neg (pass1 (by omega)), if_pos hv]
      rfl
    · simp only [violates, decide_eq_true_eq] at hv
      rw [if_neg (pass0 (by omega)), if_neg (pass1 (by omega)),
        if_neg (pass2 (by omega)), if_pos hv]
      rfl
    · simp only [violates, decide_eq_true_eq] at hv
      rw [if_neg (pass0 (by omega)), if_neg (pass1 (by omega)),
        if_neg (pass2 (by omega)), if_neg (pass3 (by omega)), if_pos hv]
      rfl
    · simp only [violates, decide_eq_true_eq] at hv
      rw [if_neg (pass0 (by omega)), if_neg (pass1 (by omega)),
        if_neg (pass2 (by omega)), if_neg (pass3 (by omega)),
        if_neg (pass4 (by omega)), if_pos hv]
      rfl
    · simp only [violates, decide_eq_true_eq] at hv
      rw [if_neg (pass0 (by omega)), if_neg (pass1 (by omega)),
        if_neg (pass2 (by omega)), if_neg (pass3 (by omega)),
        if_neg (pass4 (by omega)), if_neg (pass5 (by omega)), if_pos hv]
      rfl
    · simp only [violates, Bool.or_eq_true, decide_eq_true_eq] at hv
      rw [if_neg (pass0 (by omega)), if_neg (pass1 (by omega)),
        if_neg (pass2 (by omega)), if_neg (pass3 (by omega)),
        if_neg (pass4 (by omega)), if_neg (pass5 (by omega)),
        if_neg (pass6 (by omega)), if_pos hv]
      rfl
    · simp only [violates, Bool.or_eq_true, decide_eq_true_eq] at hv
      rw [if_neg (pass0 (by omega)), if_neg (pass1 (by omega)),
        if_neg (pass2 (by omega)), if_neg (pass3 (by omega)),
        if_neg (pass4 (by omega)), if_neg (pass5 (by omega)),
        if_neg (pass6 (by omega)), if_neg (pass7 (by omega)), if_pos hv]
      rfl

theorem validateForm_first_violation_witness :
    violates ⟨"", "", "u", "h", "1", "1"⟩ 0 = true ∧
    validateForm ⟨"", "", "u", "h", "1", "1"⟩ = some (ruleMsg 0) :=
  ⟨by decide, (validateForm_first_violation ⟨"", "", "u", "h", "1", "1"⟩).2
    0 (by omega) (by decide) (fun j hj => absurd hj (by omega))⟩

/-- C10: a form field consisting only of whitespace fails its "required"
rule (JS `trim` reduces it to the empty string), while the 500/200/100
length limits are checked against the raw, untrimmed string length. -/
theorem validate_whitespace_trimming (f : FormData) :
    (f.name.toList.all jsWhite = true →
      validateForm f = some "Pool name is required") ∧
    (f.name.toList.all jsWhite = false →
      f.description.toList.all jsWhite = true →
      validateForm f = some "Description is required") ∧
    (f.name.toList.all jsWhite = false →
      f.description.toList.all jsWhite = false → f.description.length ≤ 500 →
      f.externalUrl.toList.all jsWhite = true →
      validateForm f = some "External URL is required") ∧
    (f.name.toList.all jsWhite = false →
      f.description.toList.all jsWhite = false → f.description.length ≤ 500 →
      f.externalUrl.toList.all jsWhite = false → f.externalUrl.length ≤ 200 →
      f.imageHash.toList.all jsWhite = true →
      validateForm f = some "Image hash is required") ∧
    (f.name.toList.all jsWhite = false →
      f.description.toList.all jsWhite = false → 500 < f.description.length →
      validateForm f = some "Description must be 500 characters or less") ∧
    (f.name.toList.all jsWhite = false →
      f.description.toList.all jsWhite = false → f.description.length ≤ 500 →
      f.externalUrl.toList.all jsWhite = false → 200 < f.externalUrl.length →
      validateForm f = some "External URL must be 200 characters or less") ∧
    (f.name.toList.all jsWhite = false →
      f.description.toList.all jsWhite = false → f.description.length ≤ 500 →
      f.externalUrl.toList.all jsWhite = false → f.externalUrl.length ≤ 200 →
      f.imageHash.toList.all jsWhite = false → 100 < f.imageHash.length →
      validateForm f = some "Image hash must be 100 characters or less") := by
  have tr : ∀ t : String, t.toList.all jsWhite = true → trimJS t = "" :=
    fun t ht => (trimJS_eq_empty_iff t).2 ht
  have ntr : ∀ t : String, t.toList.all jsWhite = false → ¬(trimJS t = "") :=
    fun t ht hc => by
      rw [(trimJS_eq_empty_iff t).1 hc] at ht
      cases ht
  refine ⟨?_, ?_, ?_, ?_, ?_, ?_, ?_⟩
  · intro hn
    unfold validateForm
    rw [if_pos (tr _ hn)]
  · intro hn hd
    unfold validateForm
    rw [if_neg (ntr _ hn), if_pos (tr _ hd)]
  · intro hn hd hdl hu
    unfold validateForm
    rw [if_neg (ntr _ hn), if_neg (ntr _ hd), if_neg (by omega),
      if_pos (tr _ hu)]
  · intro hn hd hdl hu hul hh
    unfold validateForm
    rw [if_neg (ntr _ hn), if_neg (ntr _ hd), if_neg (by omega),
      if_neg (ntr _ hu), if_neg (by omega), if_pos (tr _ hh)]
  · intro hn hd hdl
    unfold validateForm
    rw [if_neg (ntr _ hn), if_neg (ntr _ hd), if_pos hdl]
  · intro hn hd hdl hu hul
    unfold validateForm
    rw [if_neg (ntr _ hn), if_neg (ntr _ hd), if_neg (by omega),
      if_neg (ntr _ hu), if_pos hul]
  · intro hn hd hdl hu hul hh hhl
    unfold validateForm
    rw [if_neg (ntr _ hn), if_neg (ntr _ hd), if_neg (by omega),
      if_neg (ntr _ hu), if_neg (by omega), if_neg (ntr _ hh), if_pos hhl]

theorem validate_whitespace_trimming_witness :
    (("  " : String).toList.all jsWhite = true) ∧
    validateForm ⟨"  ", "d", "u", "h", "1", "1"⟩ = some "Pool name is required" :=
  ⟨by decide, (validate_whitespace_trimming ⟨"  ", "d", "u", "h", "1", "1"⟩).1 (by decide)⟩

/-- C2: in every reachable page state a stored error message and a stored
success result (txHash / poolId) never coexist, and whenever a submit action
actually begins a new submission (hands a request to the gateway), the state
it enters Submitting with has the error message, txHash and poolId all
cleared. -/
theorem results_exclusive_and_cleared_on_submit (s : ControllerState)
    (h : Reachable s) :
    (s.errorMessage = "" ∨ (s.txHash = "" ∧ s.poolId = none)) ∧
    (∀ now r, (submit now s).request = some r →
      (submit now s).state.submissionState = .submitting ∧
      (submit now s).state.errorMessage = "" ∧
      (submit now s).state.txHash = "" ∧
      (submit now s).state.poolId = none) := by
  obtain ⟨h1, h2, h3⟩ := reachable_inv h
  constructor
  · by_cases he : s.errorMessage = ""
    · exact Or.inl he
    · refine Or.inr ⟨?_, ?_⟩
      · by_contra ht
        exact he (h2 (h3 (Or.inl ht)))
      · by_contra hp
        exact he (h2 (h3 (Or.inr hp)))
  · intro now r hr
    unfold submit at hr ⊢
    by_cases hg : (formRendered s && !submitDisabled s) = true
    · rw [if_pos hg] at hr ⊢
      have hgg := hg
      simp only [Bool.and_eq_true, Bool.not_eq_true'] at hgg
      obtain ⟨hren, hdis⟩ := hgg
      simp only [formRendered, Bool.and_eq_true, Bool.not_eq_true',
        decide_eq_false_iff_not] at hren
      have hnsucc : s.submissionState ≠ .success := hren.1
      obtain ⟨k, hk⟩ : ∃ k, s.publicKey = some k := by
        cases hko : s.publicKey with
        | none =>
          rw [submitDisabled, hko] at hdis
          simp at hdis
        | some k => exact ⟨k, rfl⟩
      cases hval : validateForm s.formData with
      | some msg =>
        simp only [handleSubmit, hk, hval] at hr
        simp at hr
      | none =>
        simp only [handleSubmit, hk, hval]
        refine ⟨?_, ?_, ?_, ?_⟩
        · trivial
        · trivial
        · by_contra ht
          exact hnsucc (h3 (Or.inl ht))
        · by_contra hp
          exact hnsucc (h3 (Or.inr hp))
    · rw [if_neg hg] at hr
      simp at hr

theorem results_exclusive_and_cleared_on_submit_witness :
    Reachable ⟨some "GABC", ⟨"n", "d", "u", "h", "100", "30"⟩,
      .idle, "", "", none⟩ ∧
    ((submit 0 ⟨some "GABC", ⟨"n", "d", "u", "h", "100", "30"⟩,
        .idle, "", "", none⟩).state.submissionState = .submitting ∧
     (submit 0 ⟨some "GABC", ⟨"n", "d", "u", "h", "100", "30"⟩,
        .idle, "", "", none⟩).state.errorMessage = "" ∧
     (submit 0 ⟨some "GABC", ⟨"n", "d", "u", "h", "100", "30"⟩,
        .idle, "", "", none⟩).state.txHash = "" ∧
     (submit 0 ⟨some "GABC", ⟨"n", "d", "u", "h", "100", "30"⟩,
        .idle, "", "", none⟩).state.poolId = none) := by
  have r0 : Reachable ⟨some "GABC", emptyForm, .idle, "", "", none⟩ :=
    Reachable.init _ (by refine ⟨rfl, rfl, rfl, rfl, rfl⟩)
  have r1 : Reachable ⟨some "GABC", ⟨"n", "", "", "", "", ""⟩,
      .idle, "", "", none⟩ :=
    Reachable.step _ (.inputChange .name "n") _ r0 (by decide)
  have r2 : Reachable ⟨some "GABC", ⟨"n", "d", "", "", "", ""⟩,
      .idle, "", "", none⟩ :=
    Reachable.step _ (.inputChange .description "d") _ r1 (by decide)
  have r3 : Reachable ⟨some "GABC", ⟨"n", "d", "u", "", "", ""⟩,
      .idle, "", "", none⟩ :=
    Reachable.step _ (.inputChange .externalUrl "u") _ r2 (by decide)
  have r4 : Reachable ⟨some "GABC", ⟨"n", "d", "u", "h", "", ""⟩,
      .idle, "", "", none⟩ :=
    Reachable.step _ (.inputChange .imageHash "h") _ r3 (by decide)
  have r5 : Reachable ⟨some "GABC", ⟨"n", "d", "u", "h", "100", ""⟩,
      .idle, "", "", none⟩ :=
    Reachable.step _ (.inputChange .targetAmount "100") _ r4 (by decide)
  have r6 : Reachable ⟨some "GABC", ⟨"n", "d", "u", "h", "100", "30"⟩,
      .idle, "", "", none⟩ :=
    Reachable.step _ (.inputChange .durationDays "30") _ r5 (by decide)
  refine ⟨r6, ?_⟩
  exact (results_exclusive_and_cleared_on_submit _ r6).2 0
    ⟨"n", "d", "u", "h", "100", some 2592000⟩ (by decide)

end CreatePool
